import Mathlib

/-!
Verification of the `base_orchestrator` repository (src/agent_store).

The development shallowly embeds the conversation state machine of
`agent_store/item_creation_agent/graph.py` together with the thin
orchestrator layers (`main_orchestrator`, `flow_picker_agent`,
`flow_resume_agent`) as executable Lean functions, and proves the spec's
claims about them.  Python strings are modelled character-exactly on
`List Char`; Python `dict`s are modelled as association lists with
insertion-order `update` semantics; the external LLM and tool calls are
opaque parameters, exactly as the spec treats them.
-/

namespace BaseOrchestrator

/-! ### Python string primitives (ASCII fragment, character-exact) -/

/-- Whitespace characters stripped by Python `str.strip` (ASCII range). -/
def pyIsSpace (c : Char) : Bool :=
  c == ' ' || c == '\t' || c == '\n' || c == '\r' || c == '\x0b' || c == '\x0c'

/-- `str.lstrip` on a character list. -/
def lstripL (l : List Char) : List Char := l.dropWhile pyIsSpace

/-- `str.rstrip` on a character list. -/
def rstripL (l : List Char) : List Char := (l.reverse.dropWhile pyIsSpace).reverse

/-- `str.strip` on a character list. -/
def stripL (l : List Char) : List Char := rstripL (lstripL l)

/-- Boolean prefix test on character lists (Python `str.startswith`). -/
def isPre : List Char → List Char → Bool
  | [], _ => true
  | _ :: _, [] => false
  | a :: as, b :: bs => a == b && isPre as bs

/-- Boolean substring test (Python `in` on strings). -/
def isSub (needle : List Char) : List Char → Bool
  | [] => needle.isEmpty
  | c :: rest => isPre needle (c :: rest) || isSub needle rest

/-- Python `str.strip`. -/
def pyStrip (s : String) : String := ⟨stripL s.data⟩

/-- Python `str.startswith`. -/
def pyStartsWith (s pre : String) : Bool := isPre pre.data s.data

/-- Python `str.endswith`. -/
def pyEndsWith (s suf : String) : Bool := isPre suf.data.reverse s.data.reverse

/-- Python slice `s[n:]`. -/
def pyDrop (s : String) (n : Nat) : String := ⟨s.data.drop n⟩

/-- Python slice `s[:-n]` (for `n ≤ len s`). -/
def pyDropRight (s : String) (n : Nat) : String := ⟨s.data.take (s.data.length - n)⟩

/-! ### Python dict semantics on association lists -/

/-- Python dict key lookup: first (and, for a genuine dict, only) binding. -/
def alookup {α : Type} (k : String) : List (String × α) → Option α
  | [] => none
  | kv :: rest => if kv.1 = k then some kv.2 else alookup k rest

/-- Python `d[k] = v`: an existing key keeps its position and gets the new
value, a fresh key is appended (insertion order). -/
def dictInsert {α : Type} (d : List (String × α)) (k : String) (v : α) :
    List (String × α) :=
  if (alookup k d).isSome then
    d.map (fun kv => if kv.1 = k then (k, v) else kv)
  else d ++ [(k, v)]

/-- Python `d.update(m)`: insert the items of `m` in order. -/
def dictUpdate {α : Type} (d m : List (String × α)) : List (String × α) :=
  m.foldl (fun acc kv => dictInsert acc kv.1 kv.2) d

/-- Keys of an association list. -/
def akeys {α : Type} (d : List (String × α)) : List String := d.map Prod.fst

/-! ### Python values produced by `json.loads` -/

/-- Values produced by `json.loads` on the JSON fragment this program
exchanges (objects, arrays, strings, integers, booleans, null). -/
inductive PyVal where
  | str (s : String)
  | num (n : Int)
  | boolean (b : Bool)
  | null
  | arr (xs : List PyVal)
  | obj (kvs : List (String × PyVal))

/-- Python `==` between a string and an arbitrary value (used by `in` on a
list): only equal strings compare equal. -/
def pyStrEqElem (k : String) : PyVal → Bool
  | .str s => s == k
  | _ => false

/-- Python exceptions relevant to `_validate_node` and `_retry_node`. -/
inductive PyExn where
  | jsonDecodeError (msg : String)
  | attributeError (msg : String)
  | typeError (msg : String)
  | indexError (msg : String)
deriving DecidableEq, Repr

/-- Python `key in value` (`in` on a dict checks keys, on a list checks
elements, on a string checks substrings; on numbers/booleans/None it
raises `TypeError`). -/
def pyContains (v : PyVal) (k : String) : Except PyExn Bool :=
  match v with
  | .obj kvs => .ok (alookup k kvs).isSome
  | .arr xs => .ok (xs.any (pyStrEqElem k))
  | .str s => .ok (isSub k.data s.data)
  | .num _ => .error (.typeError "argument of type is not iterable")
  | .boolean _ => .error (.typeError "argument of type is not iterable")
  | .null => .error (.typeError "argument of type is not iterable")

/-! ### json.loads (executable model of the fragment used by the agent) -/

/-- JSON whitespace accepted between tokens by `json.loads`. -/
def jsonWsChar (c : Char) : Bool := c == ' ' || c == '\t' || c == '\n' || c == '\r'

/-- JSON string escapes handled by the model (`\" \\ \/ \n \t \r`). -/
def escChar (c : Char) : Option Char :=
  if c = '"' then some '"'
  else if c = '\\' then some '\\'
  else if c = '/' then some '/'
  else if c = 'n' then some '\n'
  else if c = 't' then some '\t'
  else if c = 'r' then some '\r'
  else none

/-- Parse the body of a JSON string (opening quote already consumed),
returning the decoded characters and the rest of the input. -/
def parseStrAux : List Char → Option (List Char × List Char)
  | [] => none
  | c :: rest =>
    if c = '"' then some ([], rest)
    else if c = '\\' then
      match rest with
      | [] => none
      | e :: rest2 =>
        match escChar e, parseStrAux rest2 with
        | some ec, some (s, r) => some (ec :: s, r)
        | _, _ => none
    else
      match parseStrAux rest with
      | some (s, r) => some (c :: s, r)
      | none => none

/-- Decimal digits to a natural number. -/
def digitsToNat (ds : List Char) : Nat :=
  ds.foldl (fun a c => a * 10 + (c.toNat - 48)) 0

/-- Parse a run of decimal digits. -/
def parseDigits (l : List Char) : Option (Nat × List Char) :=
  let ds := l.takeWhile Char.isDigit
  if ds.isEmpty then none else some (digitsToNat ds, l.dropWhile Char.isDigit)

mutual

/-- Parse one JSON value (fuelled recursion; the fuel is sized from the
input so it never runs out on real inputs). -/
def parseValue : Nat → List Char → Except String (PyVal × List Char)
  | 0, _ => .error "Expecting value"
  | fuel + 1, l =>
    match l.dropWhile jsonWsChar with
    | [] => .error "Expecting value"
    | c :: rest =>
      if c = '\x7b' then parseObjStart fuel rest
      else if c = '[' then parseArrStart fuel rest
      else if c = '"' then
        match parseStrAux rest with
        | some (s, r) => .ok (.str ⟨s⟩, r)
        | none => .error "Unterminated string"
      else if c = '-' then
        match parseDigits rest with
        | some (n, r) => .ok (.num (-(n : Int)), r)
        | none => .error "Expecting value"
      else if c.isDigit then
        match parseDigits (c :: rest) with
        | some (n, r) => .ok (.num (n : Int), r)
        | none => .error "Expecting value"
      else if isPre "true".data (c :: rest) then .ok (.boolean true, (c :: rest).drop 4)
      else if isPre "false".data (c :: rest) then .ok (.boolean false, (c :: rest).drop 5)
      else if isPre "null".data (c :: rest) then .ok (.null, (c :: rest).drop 4)
      else .error "Expecting value"

/-- Parse an object body right after `{`: either `}` or the members. -/
def parseObjStart : Nat → List Char → Except String (PyVal × List Char)
  | 0, _ => .error "Expecting property name"
  | fuel + 1, l =>
    match l.dropWhile jsonWsChar with
    | '\x7d' :: rest => .ok (.obj [], rest)
    | _ => parseMembers fuel [] l

/-- Parse the members of an object; duplicate keys follow Python's
last-one-wins dict construction. -/
def parseMembers : Nat → List (String × PyVal) → List Char →
    Except String (PyVal × List Char)
  | 0, _, _ => .error "Expecting property name"
  | fuel + 1, acc, l =>
    match l.dropWhile jsonWsChar with
    | '"' :: rest =>
      match parseStrAux rest with
      | none => .error "Unterminated string"
      | some (k, r1) =>
        match r1.dropWhile jsonWsChar with
        | ':' :: r2 =>
          match parseValue fuel r2 with
          | .error e => .error e
          | .ok (v, r3) =>
            match r3.dropWhile jsonWsChar with
            | ',' :: r4 => parseMembers fuel (dictInsert acc ⟨k⟩ v) r4
            | '\x7d' :: r4 => .ok (.obj (dictInsert acc ⟨k⟩ v), r4)
            | _ => .error "Expecting delimiter"
        | _ => .error "Expecting colon delimiter"
    | _ => .error "Expecting property name"

/-- Parse an array body right after `[`: either `]` or the elements. -/
def parseArrStart : Nat → List Char → Except String (PyVal × List Char)
  | 0, _ => .error "Expecting value"
  | fuel + 1, l =>
    match l.dropWhile jsonWsChar with
    | ']' :: rest => .ok (.arr [], rest)
    | _ => parseElems fuel [] l

/-- Parse the elements of an array. -/
def parseElems : Nat → List PyVal → List Char → Except String (PyVal × List Char)
  | 0, _, _ => .error "Expecting value"
  | fuel + 1, acc, l =>
    match parseValue fuel l with
    | .error e => .error e
    | .ok (v, r) =>
      match r.dropWhile jsonWsChar with
      | ',' :: r2 => parseElems fuel (acc ++ [v]) r2
      | ']' :: r2 => .ok (.arr (acc ++ [v]), r2)
      | _ => .error "Expecting delimiter"

end

/-- Model of Python `json.loads`: parse one value and require only
whitespace afterwards (otherwise `Extra data`, as in CPython). -/
def json_loads (s : String) : Except String PyVal :=
  match parseValue (s.data.length + 1) s.data with
  | .error e => .error e
  | .ok (v, rest) =>
    if (rest.dropWhile jsonWsChar).isEmpty then .ok v else .error "Extra data"

/-! ### Conversation state (`ItemGenerationState` plus the extra keys
`execute` seeds: `validation_errors`, `retry_count`, `tool_iteration_count`) -/

/-- Transcript messages.  `ai` carries the response content and whether the
response requested tool calls; only `ai` messages have a `tool_calls`
attribute (`hasattr` is false on the others). -/
inductive Message where
  | system (content : String)
  | human (content : String)
  | ai (content : String) (tool_calls : Bool)
  | tool (content : String)
deriving DecidableEq, Repr

/-- One entry of the field catalog returned by `get_field_list`.  The
catalog dicts always carry the `Name`/`Type`/`Id`/`Required` keys, so they
are modelled as a record. -/
structure Field where
  id : String
  name : String
  ftype : String
  required : Bool
deriving DecidableEq, Repr

/-- The graph state threaded through the item-creation nodes.  `context`
is the caller-supplied context already rendered by `str(...)` (it is only
ever concatenated into the system prompt). `field_values_dict` starts
absent (`execute` does not seed it) and may be set to any parsed JSON
value by `_validate_node`. -/
structure GenState where
  messages : List Message
  context : Option String
  field_list : List Field
  field_values_dict : Option PyVal
  generated_code : Option String
  validation_errors : List String
  retry_count : Nat
  tool_iteration_count : Nat
  store : List (String × String)

/-! ### `_prepare_context_node` -/

/-- `GraphConstants.ContextMessages.FIELD_INFO_FORMAT` rendered for one
field. -/
def fieldInfoLine (f : Field) : String :=
  "- " ++ f.name ++ ": " ++ f.ftype ++ " (id: " ++ f.id ++ ")"

/-- The `context_parts` list built by `_prepare_context_node`. -/
def contextParts (fl : List Field) (ctx : Option String) : List String :=
  (if fl.isEmpty then [] else "Available Fields:" :: fl.map fieldInfoLine) ++
  (match ctx with
   | some c => ["\nAdditional Context: " ++ c]
   | none => [])

/-- `not messages or not isinstance(messages[0], SystemMessage)` negated:
the transcript already begins with a system message. -/
def headedBySystem : List Message → Bool
  | .system _ :: _ => true
  | _ => false

/-- `ItemCreationGraph._prepare_context_node`: synthesize and prepend the
system message unless the transcript already starts with one. -/
def prepare_context_node (sysPrompt : String) (s : GenState) : GenState :=
  if headedBySystem s.messages then s
  else
    { s with messages :=
        .system (sysPrompt ++ "\n\n" ++
          String.intercalate "\n" (contextParts s.field_list s.context))
        :: s.messages }

/-! ### `_generate_node` -/

/-- The opaque LLM response: optional text content (empty string models a
falsy `response.content`) and whether tool calls were requested. -/
structure LlmResponse where
  content : String
  tool_calls : Bool
deriving DecidableEq, Repr

/-- `ItemCreationGraph._generate_node`.  The LLM call is opaque: its
outcome (a response, or an exception caught by the node) is a parameter.
On success the response is appended to the transcript,
`tool_iteration_count` is incremented iff tool calls were requested, and
non-empty content becomes `generated_code`; on failure only
`validation_errors` is set. -/
def generate_node (resp : Except String LlmResponse) (s : GenState) : GenState :=
  match resp with
  | .error e => { s with validation_errors := ["Generation error: " ++ e] }
  | .ok r =>
    { s with
      messages := s.messages ++ [.ai r.content r.tool_calls],
      tool_iteration_count :=
        s.tool_iteration_count + (if r.tool_calls then 1 else 0),
      generated_code := if r.content = "" then none else some r.content }

/-! ### `_clean_code` -/

/-- The middle reassignment of `_clean_code`: remove one leading
```` ```python ```` or ```` ``` ```` fence (`code[9:].strip()` /
`code[3:].strip()`). -/
def cleanFence (code : List Char) : List Char :=
  if isPre "```python".data code then stripL (code.drop 9)
  else if isPre "```".data code then stripL (code.drop 3)
  else code

/-- The final reassignment of `_clean_code`: remove one trailing
```` ``` ```` fence (`code[:-3].strip()`). -/
def cleanSuffix (code : List Char) : List Char :=
  if isPre "```".data.reverse code.reverse then stripL (code.take (code.length - 3))
  else code

/-- `ItemCreationGraph._clean_code` on the character list: `code.strip()`,
then the leading-fence removal, then the trailing-fence removal. -/
def cleanL (code : List Char) : List Char := cleanSuffix (cleanFence (stripL code))

/-- `ItemCreationGraph._clean_code`. -/
def clean_code (code : String) : String := ⟨cleanL code.data⟩

/-! ### `_validate_node` -/

/-- `GraphConstants.Validation.NO_CODE_ERROR`. -/
def NO_CODE_ERROR : String := "No code generated"

/-- Python single-quote character (for `repr` of strings). -/
def sq : String := ⟨[Char.ofNat 39]⟩

/-- Python `repr` of a list of plain strings (as rendered by the f-string
`f"... {missed_required_field_list=}"`). -/
def pyReprStrList (l : List String) : String :=
  "[" ++ String.intercalate ", " (l.map (fun x => sq ++ x ++ sq)) ++ "]"

/-- The interrupt prompt
`f"Provide values for this fields {missed_required_field_list=}"`. -/
def suspendPrompt (missing : List String) : String :=
  "Provide values for this fields missed_required_field_list=" ++
    pyReprStrList missing

/-- The merge step of `_validate_node`: if the parsed value is a dict and
`field_values_dict` is not `None`, run `state["field_values_dict"].update(parsed)`
(an `AttributeError` if the stored value is not a dict) and use the merged
dict; otherwise keep the parsed value as `field_value_map`. -/
def mergeStep (v : PyVal) (fvd : Option PyVal) : Except PyExn PyVal :=
  match v, fvd with
  | .obj m, some (.obj d) => .ok (.obj (dictUpdate d m))
  | .obj _, some _ =>
    .error (.attributeError "object has no attribute update")
  | .obj m, none => .ok (.obj m)
  | v, _ => .ok v

/-- The in-place effect of that merge on the state's `field_values_dict`
(visible already at the interrupt, before the node returns). -/
def inPlaceFvd (v : PyVal) (fvd : Option PyVal) : Option PyVal :=
  match v, fvd with
  | .obj m, some (.obj d) => some (.obj (dictUpdate d m))
  | _, _ => fvd

/-- The required-field scan of `_validate_node`: ids of catalog fields with
`Required is True` whose id is not `in` the merged `field_value_map`
(Python `in` may raise `TypeError` on non-container values). -/
def missingRequired (fl : List Field) (fvm : PyVal) : Except PyExn (List String) :=
  fl.foldlM
    (fun acc f =>
      if f.required then do
        let b ← pyContains fvm f.id
        pure (if b then acc else acc ++ [f.id])
      else pure acc)
    []

/-- Outcome of `_validate_node`: either a normal return (with the flag
telling whether `self.retry_from_scratch` was set to `True`), or a raised
`interrupt` carrying the prompt and the state as persisted at suspension. -/
inductive VOut where
  | suspended (prompt : String) (s : GenState)
  | normal (setRetryFromScratch : Bool) (s : GenState)

/-- The side-channel update
`state["store"].update({"interrupted_message": ..., "subgraph_id": "item_creater_agent"})`. -/
def suspendStore (st : List (String × String)) (missing : List String) :
    List (String × String) :=
  dictUpdate st
    [("interrupted_message", suspendPrompt missing),
     ("subgraph_id", "item_creater_agent")]

/-- The state as persisted at the `interrupt` call: the side channel and
(in-place) pending values are already updated; transcript, errors and the
rest are untouched because the return statement has not run yet. -/
def suspendedState (s : GenState) (v : PyVal) (missing : List String) : GenState :=
  { s with store := suspendStore s.store missing,
           field_values_dict := inPlaceFvd v s.field_values_dict }

/-- The state returned after the interrupt is resumed with `fb`. -/
def resumedState (s : GenState) (fvm : PyVal) (missing : List String)
    (fb : String) : GenState :=
  { s with store := suspendStore s.store missing,
           messages := [.human fb],
           field_values_dict := some fvm,
           validation_errors := [NO_CODE_ERROR] }

/-- The tail of `_validate_node` after a successful parse and merge: the
required-field scan, the side-channel record and `interrupt` on missing
fields, and the node's returns. -/
def validateTail (resume : Option String) (s : GenState) (v fvm : PyVal) :
    Except PyExn VOut :=
  match missingRequired s.field_list fvm with
  | .error e => .error e
  | .ok [] => .ok (.normal false { s with field_values_dict := some fvm })
  | .ok (m0 :: ms) =>
    match resume with
    | none =>
      .ok (.suspended (suspendPrompt (m0 :: ms)) (suspendedState s v (m0 :: ms)))
    | some fb =>
      .ok (.normal true (resumedState s fvm (m0 :: ms) fb))

/-- `ItemCreationGraph._validate_node`.  `resume` is the value a later
`Command(resume=...)` substitutes for the `interrupt` call: `none` means
the interrupt suspends the run, `some fb` means the node runs to completion
with `user_feedback = fb`.  Note that the `except SyntaxError` handler can
never catch the `json.JSONDecodeError` raised by `json.loads`, so a parse
failure escapes as an exception. -/
def validate_node (resume : Option String) (s : GenState) : Except PyExn VOut :=
  match s.generated_code with
  | none => .ok (.normal false { s with validation_errors := [NO_CODE_ERROR] })
  | some gc =>
    if gc = "" then
      .ok (.normal false { s with validation_errors := [NO_CODE_ERROR] })
    else
      match json_loads (clean_code gc) with
      | .error e => .error (.jsonDecodeError e)
      | .ok v =>
        match mergeStep v s.field_values_dict with
        | .error e => .error e
        | .ok fvm => validateTail resume s v fvm

/-! ### `_retry_node` -/

/-- The corrective feedback message appended by `_retry_node`. -/
def retryErrMsg (ve : List String) : String :=
  "Previous attempt failed with errors: " ++ String.intercalate ", " ve ++
    ". Please generate valid Python code"

/-- `ItemCreationGraph._retry_node`.  Takes and returns the instance flag
`self.retry_from_scratch`.  On the tool-cap truncation branch, Python's
`messages[1]` raises `IndexError` when the transcript has fewer than two
entries. -/
def retry_node (maxRetries maxToolIterations : Nat) (rfs : Bool) (s : GenState) :
    Except PyExn (Bool × GenState) :=
  if s.validation_errors ≠ [] ∧ s.retry_count + 1 ≤ maxRetries then
    .ok (rfs,
      { s with retry_count := s.retry_count + 1,
               messages := s.messages ++ [.human (retryErrMsg s.validation_errors)],
               validation_errors := [],
               generated_code := none })
  else if rfs then
    .ok (false,
      { s with retry_count := s.retry_count + 1, validation_errors := [],
               generated_code := none })
  else if maxToolIterations < s.tool_iteration_count ∧ s.retry_count + 1 ≤ maxRetries then
    match s.messages.get? 1 with
    | some m =>
      .ok (rfs,
        { s with retry_count := s.retry_count + 1, messages := [m],
                 validation_errors := [], generated_code := none })
    | none => .error (.indexError "list index out of range")
  else
    .ok (rfs,
      { s with retry_count := s.retry_count + 1, validation_errors := [],
               generated_code := none })

/-! ### Routing functions -/

/-- Truthiness of `state.get("generated_code")`. -/
def gcTruthy : Option String → Bool
  | some c => c ≠ ""
  | none => false

/-- `tool_calls` of `messages[-1] if messages else None`. -/
def lastMsgToolCalls (msgs : List Message) : Bool :=
  match msgs.getLast? with
  | some (.ai _ tc) => tc
  | _ => false

/-- `ItemCreationGraph._route_after_generation`. -/
def route_after_generation (maxToolIterations : Nat) (s : GenState) : String :=
  if lastMsgToolCalls s.messages then
    if maxToolIterations < s.tool_iteration_count then "retry" else "tools"
  else if gcTruthy s.generated_code then "validate"
  else "retry"

/-- `ItemCreationGraph._route_after_validation` (reads the state's
`validation_errors` and the instance flag `retry_from_scratch`). -/
def route_after_validation (rfs : Bool) (s : GenState) : String :=
  if s.validation_errors = [] ∧ rfs = false then "create" else "retry"

/-- `ItemCreationGraph._route_after_retry`. -/
def route_after_retry (maxRetries : Nat) (s : GenState) : String :=
  if maxRetries < s.retry_count then "end" else "prepare_context"

/-! ### Graph wiring (`_build_graph`) and execution step relation -/

/-- Graph positions: the six named nodes plus the terminal/outcome
positions of a run (`done` = `END`, `suspendedAt` = paused inside the
VALIDATE interrupt, `failed` = an uncaught exception aborted the run). -/
inductive Node where
  | prepare
  | generate
  | tools
  | validate
  | create
  | retry
  | done
  | suspendedAt
  | failed
deriving DecidableEq, Repr

/-- The conditional-edge map after GENERATE. -/
def genRouteNode (maxToolIterations : Nat) (s : GenState) : Node :=
  if route_after_generation maxToolIterations s = "tools" then .tools
  else if route_after_generation maxToolIterations s = "validate" then .validate
  else .retry

/-- The conditional-edge map after VALIDATE. -/
def valRouteNode (rfs : Bool) (s : GenState) : Node :=
  if route_after_validation rfs s = "create" then .create else .retry

/-- The conditional-edge map after RETRY. -/
def retryRouteNode (maxRetries : Nat) (s : GenState) : Node :=
  if route_after_retry maxRetries s = "end" then .done else .prepare

/-- A configuration of the compiled graph: current position, the instance
flag `self.retry_from_scratch`, and the graph state. -/
structure Config where
  node : Node
  rfs : Bool
  s : GenState

/-- One execution step of the compiled item-creation graph.  The LLM
response at GENERATE, the tool results at TOOLS and the resume value after
a suspension are opaque inputs, so the relation quantifies over them. -/
inductive Step (maxRetries maxToolIterations : Nat) (sysPrompt : String) :
    Config → Config → Prop where
  | prepare (rfs : Bool) (s : GenState) :
      Step maxRetries maxToolIterations sysPrompt
        ⟨.prepare, rfs, s⟩ ⟨.generate, rfs, prepare_context_node sysPrompt s⟩
  | generate (rfs : Bool) (s : GenState) (resp : Except String LlmResponse) :
      Step maxRetries maxToolIterations sysPrompt
        ⟨.generate, rfs, s⟩
        ⟨genRouteNode maxToolIterations (generate_node resp s), rfs,
          generate_node resp s⟩
  | tools (rfs : Bool) (s : GenState) (results : List String) :
      Step maxRetries maxToolIterations sysPrompt
        ⟨.tools, rfs, s⟩
        ⟨.generate, rfs, { s with messages := s.messages ++ results.map .tool }⟩
  | validateNorm (rfs : Bool) (s : GenState) (set2 : Bool) (s' : GenState)
      (h : validate_node none s = .ok (.normal set2 s')) :
      Step maxRetries maxToolIterations sysPrompt
        ⟨.validate, rfs, s⟩ ⟨valRouteNode (rfs || set2) s', rfs || set2, s'⟩
  | validateSusp (rfs : Bool) (s : GenState) (prompt : String) (s' : GenState)
      (h : validate_node none s = .ok (.suspended prompt s')) :
      Step maxRetries maxToolIterations sysPrompt
        ⟨.validate, rfs, s⟩ ⟨.suspendedAt, rfs, s'⟩
  | validateErr (rfs : Bool) (s : GenState) (e : PyExn)
      (h : validate_node none s = .error e) :
      Step maxRetries maxToolIterations sysPrompt
        ⟨.validate, rfs, s⟩ ⟨.failed, rfs, s⟩
  | resume (rfs : Bool) (s : GenState) (fb : String) (set2 : Bool) (s' : GenState)
      (h : validate_node (some fb) s = .ok (.normal set2 s')) :
      Step maxRetries maxToolIterations sysPrompt
        ⟨.suspendedAt, rfs, s⟩ ⟨valRouteNode (rfs || set2) s', rfs || set2, s'⟩
  | resumeErr (rfs : Bool) (s : GenState) (fb : String) (e : PyExn)
      (h : validate_node (some fb) s = .error e) :
      Step maxRetries maxToolIterations sysPrompt
        ⟨.suspendedAt, rfs, s⟩ ⟨.failed, rfs, s⟩
  | retryOk (rfs : Bool) (s : GenState) (rfs' : Bool) (s' : GenState)
      (h : retry_node maxRetries maxToolIterations rfs s = .ok (rfs', s')) :
      Step maxRetries maxToolIterations sysPrompt
        ⟨.retry, rfs, s⟩ ⟨retryRouteNode maxRetries s', rfs', s'⟩
  | retryErr (rfs : Bool) (s : GenState) (e : PyExn)
      (h : retry_node maxRetries maxToolIterations rfs s = .error e) :
      Step maxRetries maxToolIterations sysPrompt
        ⟨.retry, rfs, s⟩ ⟨.failed, rfs, s⟩
  | create (rfs : Bool) (s : GenState) :
      Step maxRetries maxToolIterations sysPrompt
        ⟨.create, rfs, s⟩ ⟨.done, rfs, s⟩

/-- The initial configuration built by `ItemCreationGraph.execute`
(`field_values_dict` is not seeded; both counters start at 0;
`self.retry_from_scratch` starts `False`; entry point `PREPARE_CONTEXT`). -/
def initConfig (query : String) (catalog : List Field) (ctx : Option String)
    (store : List (String × String)) : Config :=
  ⟨.prepare, false,
    { messages := [.human query],
      context := ctx,
      field_list := catalog,
      field_values_dict := none,
      generated_code := none,
      validation_errors := [],
      retry_count := 0,
      tool_iteration_count := 0,
      store := store }⟩

/-! ### `flow_picker_agent` and `flow_resume_agent` / `main_orchestrator` -/

/-- `FlowPickerAgent.execute`: the body never consults `self.llm` nor its
argument and returns the constant string. -/
def flowPickerExecute (_new_user_message : String) : String :=
  "Leave management"

/-- `MainOrchestrator._flow_picker_node`: the flow id it stores is the
picker's result on the current query. -/
def flow_picker_node (query : String) : String :=
  flowPickerExecute query

/-- `flow_resume_agent.MessageType`. -/
inductive MessageType where
  | answer
  | continuation
  | newConversation
deriving DecidableEq, Repr

/-- `flow_resume_agent.ClassificationResult` (a pydantic model wrapping the
enum field). -/
structure ClassificationResult where
  message_type : MessageType
deriving DecidableEq, Repr

/-- The two operand shapes of the Python comparison
`result == "answer"`: a pydantic model instance or a `str`. -/
inductive PyCmp where
  | model (c : ClassificationResult)
  | pystr (s : String)
deriving DecidableEq

/-- Python `==` across those shapes: `BaseModel.__eq__` returns
`NotImplemented` on a non-model operand and `str.__eq__` likewise on a
non-str, so a model never compares equal to a string. -/
def pyEqCmp : PyCmp → PyCmp → Bool
  | .model a, .model b => a == b
  | .pystr a, .pystr b => a == b
  | _, _ => false

/-- Outcome of `MainOrchestrator._flow_resume_node`: either it resumed the
remembered specialist and ended the run (`Command(goto=END)`), or control
falls through to the flow-picker node. -/
inductive FlowResumeAction where
  | resumeSpecialistAndEnd
  | fallThroughToFlowPicker
deriving DecidableEq, Repr

/-- `MainOrchestrator._flow_resume_node`.  `classify` is the opaque
`FlowResumeAgent.execute`, which returns a `ClassificationResult`; the
node compares that object against the string `"answer"`. -/
def flow_resume_node (interrupted_message : Option String)
    (classify : String → String → ClassificationResult) (query : String) :
    FlowResumeAction :=
  match interrupted_message with
  | some im =>
    if pyEqCmp (.model (classify im query)) (.pystr "answer") then
      .resumeSpecialistAndEnd
    else .fallThroughToFlowPicker
  | none => .fallThroughToFlowPicker

/-! ### Auxiliary definitions used by the theorems -/

/-- The state carried by a `_validate_node` outcome. -/
def voutState : VOut → GenState
  | .suspended _ st => st
  | .normal _ st => st

/-- Lookup into the pending-values mapping as Python sees it (`None` or a
non-dict holds no bindings). -/
def pendingLookup (fvd : Option PyVal) (k : String) : Option PyVal :=
  match fvd with
  | some (.obj d) => alookup k d
  | _ => none

/-- Forget the raw payload buffer of a state (the wrapped and unwrapped
payloads trivially differ in `generated_code` itself). -/
def scrubGc (s : GenState) : GenState := { s with generated_code := none }

/-- `scrubGc` lifted to validation outcomes. -/
def scrubVOut : VOut → VOut
  | .suspended p st => .suspended p (scrubGc st)
  | .normal b st => .normal b (scrubGc st)

/-- `scrubGc` lifted to `_validate_node` results. -/
def scrubRes : Except PyExn VOut → Except PyExn VOut
  | .error e => .error e
  | .ok o => .ok (scrubVOut o)

/-- Did `_validate_node` return (rather than raise)? -/
def resIsOk : Except PyExn VOut → Bool
  | .ok _ => true
  | .error _ => false

/-- Wrap a payload in the markdown fences of the round-trip claim: a
leading ```` ```python ```` line and a trailing ```` ``` ```` line. -/
def fenceWrap (p : String) : String := "```python\n" ++ p ++ "\n```"

/-- A small state builder for concrete witnesses (empty context/store). -/
def mkState (msgs : List Message) (fl : List Field) (fvd : Option PyVal)
    (gc : Option String) (ve : List String) (rc tic : Nat) : GenState :=
  { messages := msgs, context := none, field_list := fl,
    field_values_dict := fvd, generated_code := gc, validation_errors := ve,
    retry_count := rc, tool_iteration_count := tic, store := [] }

/-- The Leave-Request catalog fragment used in concrete witnesses
(`Summary` and `Start_Date` are the required fields of `get_field_list`). -/
def sampleCatalog : List Field :=
  [⟨"Summary", "Reason for leave", "Text", true⟩,
   ⟨"Start_Date", "Start Date", "DateTime", true⟩,
   ⟨"End_Date", "End Date", "DateTime", false⟩]

/-! ### Lemmas: association-list model of Python dict update -/

theorem alookup_map_overwrite {α : Type} (d : List (String × α)) (k : String) (v : α) :
    alookup k (d.map (fun kv => if kv.1 = k then (k, v) else kv)) =
      if (alookup k d).isSome then some v else none := by
  induction d with
  | nil => simp [alookup]
  | cons kv t ih =>
    by_cases h : kv.1 = k
    · simp [alookup, h]
    · simp [alookup, h, ih]

theorem alookup_map_ne {α : Type} (d : List (String × α)) (k k' : String) (v : α)
    (h : k' ≠ k) :
    alookup k' (d.map (fun kv => if kv.1 = k then (k, v) else kv)) = alookup k' d := by
  induction d with
  | nil => rfl
  | cons kv t ih =>
    rw [List.map_cons]
    by_cases h2 : kv.1 = k
    · rw [if_pos h2]
      simp [alookup, h2, Ne.symm h, ih]
    · rw [if_neg h2]
      simp [alookup, ih]

theorem alookup_append {α : Type} (d e : List (String × α)) (k : String) :
    alookup k (d ++ e) =
      if (alookup k d).isSome then alookup k d else alookup k e := by
  induction d with
  | nil => simp [alookup]
  | cons kv t ih =>
    by_cases h : kv.1 = k
    · simp [alookup, h]
    · simp [alookup, h, ih]

theorem alookup_dictInsert_self {α : Type} (d : List (String × α)) (k : String) (v : α) :
    alookup k (dictInsert d k v) = some v := by
  unfold dictInsert
  split
  · rw [alookup_map_overwrite]; simp_all
  · rw [alookup_append]; simp_all [alookup]

theorem alookup_dictInsert_ne {α : Type} (d : List (String × α)) (k k' : String) (v : α)
    (h : k' ≠ k) :
    alookup k' (dictInsert d k v) = alookup k' d := by
  unfold dictInsert
  split
  · exact alookup_map_ne d k k' v h
  · rw [alookup_append]
    by_cases hs : (alookup k' d).isSome
    · simp [hs]
    · rw [Option.not_isSome_iff_eq_none] at hs
      simp [hs, alookup, Ne.symm h]

theorem isSome_alookup_dictInsert {α : Type} (d : List (String × α)) (k k' : String)
    (v : α) (h : (alookup k' d).isSome) :
    (alookup k' (dictInsert d k v)).isSome := by
  by_cases he : k' = k
  · subst he; rw [alookup_dictInsert_self]; rfl
  · rw [alookup_dictInsert_ne d k k' v he]; exact h

theorem alookup_eq_none_of_not_mem_akeys {α : Type} (m : List (String × α)) (k : String)
    (h : k ∉ akeys m) :
    alookup k m = none := by
  induction m with
  | nil => rfl
  | cons kv t ih =>
    simp only [akeys, List.map_cons, List.mem_cons, not_or] at h
    simp only [alookup]
    rw [if_neg (fun hh => h.1 hh.symm)]
    exact ih (by simpa [akeys] using h.2)

theorem dictUpdate_cons {α : Type} (d : List (String × α)) (kv : String × α)
    (t : List (String × α)) :
    dictUpdate d (kv :: t) = dictUpdate (dictInsert d kv.1 kv.2) t := by
  simp [dictUpdate]

theorem alookup_dictUpdate_not_mem {α : Type} (d m : List (String × α)) (k : String)
    (h : alookup k m = none) :
    alookup k (dictUpdate d m) = alookup k d := by
  induction m generalizing d with
  | nil => rfl
  | cons kv t ih =>
    by_cases hk : kv.1 = k
    · simp [alookup, hk] at h
    · simp only [alookup, hk, if_false] at h
      rw [dictUpdate_cons, ih _ h, alookup_dictInsert_ne _ _ _ _ (fun hh => hk hh.symm)]

theorem alookup_dictUpdate_isSome {α : Type} (d m : List (String × α)) (k : String)
    (h : (alookup k d).isSome) :
    (alookup k (dictUpdate d m)).isSome := by
  induction m generalizing d with
  | nil => exact h
  | cons kv t ih =>
    rw [dictUpdate_cons]
    exact ih _ (isSome_alookup_dictInsert _ _ _ _ h)

theorem alookup_dictUpdate_mem {α : Type} (d m : List (String × α)) (k : String) (v : α)
    (hnd : (akeys m).Nodup) (h : alookup k m = some v) :
    alookup k (dictUpdate d m) = some v := by
  induction m generalizing d with
  | nil => cases h
  | cons kv t ih =>
    rw [dictUpdate_cons]
    rw [akeys, List.map_cons, List.nodup_cons] at hnd
    by_cases hk : kv.1 = k
    · subst hk
      simp [alookup] at h
      rw [alookup_dictUpdate_not_mem _ _ _
            (alookup_eq_none_of_not_mem_akeys _ _ hnd.1),
          alookup_dictInsert_self, h]
    · simp only [alookup, hk, if_false] at h
      exact ih _ hnd.2 h

/-! ### Per-node preservation lemmas -/

theorem prepare_counters (sp : String) (s : GenState) :
    (prepare_context_node sp s).retry_count = s.retry_count ∧
    (prepare_context_node sp s).tool_iteration_count = s.tool_iteration_count := by
  unfold prepare_context_node
  split <;> simp

theorem generate_rc (resp : Except String LlmResponse) (s : GenState) :
    (generate_node resp s).retry_count = s.retry_count := by
  cases resp <;> simp [generate_node]

theorem generate_tic_mono (resp : Except String LlmResponse) (s : GenState) :
    s.tool_iteration_count ≤ (generate_node resp s).tool_iteration_count := by
  cases resp with
  | error e => simp [generate_node]
  | ok r => simp [generate_node]

theorem generate_tic_of_tool_calls (r : LlmResponse) (s : GenState)
    (h : r.tool_calls = true) :
    (generate_node (.ok r) s).tool_iteration_count = s.tool_iteration_count + 1 := by
  simp [generate_node, h]

theorem generate_tic_of_no_tool_calls (r : LlmResponse) (s : GenState)
    (h : r.tool_calls = false) :
    (generate_node (.ok r) s).tool_iteration_count = s.tool_iteration_count := by
  simp [generate_node, h]

theorem validate_ok_pres (r : Option String) (s : GenState) (out : VOut)
    (h : validate_node r s = .ok out) :
    (voutState out).retry_count = s.retry_count ∧
    (voutState out).tool_iteration_count = s.tool_iteration_count ∧
    (voutState out).field_list = s.field_list ∧
    (voutState out).context = s.context := by
  unfold validate_node validateTail at h
  repeat' split at h
  all_goals first
    | (injection h with h; subst h; simp [voutState, suspendedState, resumedState])
    | injection h

theorem retry_node_ok_spec (maxR maxTI : Nat) (rfs : Bool) (s : GenState)
    (rfs' : Bool) (s' : GenState)
    (h : retry_node maxR maxTI rfs s = .ok (rfs', s')) :
    s'.retry_count = s.retry_count + 1 ∧
    s'.validation_errors = [] ∧
    s'.generated_code = none ∧
    s'.field_values_dict = s.field_values_dict ∧
    s'.field_list = s.field_list ∧
    s'.context = s.context ∧
    s'.tool_iteration_count = s.tool_iteration_count ∧
    s'.store = s.store := by
  unfold retry_node at h
  repeat' split at h
  all_goals first
    | (injection h with h; injection h with h1 h2; subst h2; simp)
    | injection h

/-! ### Step-level invariants of the compiled graph -/

/-- The retry-count invariant: the counter stays below `maxR + 1`, and the
only configuration that can carry the value `maxR + 1` is the terminal END
node. -/
def RcInv (maxR : Nat) (c : Config) : Prop :=
  c.s.retry_count ≤ maxR + 1 ∧ (c.s.retry_count = maxR + 1 → c.node = .done)

theorem rcInv_frame (maxR : Nat) (n : Node) (rfs : Bool) (s' : GenState)
    (rc : Nat) (hrc : s'.retry_count = rc) (hle : rc ≤ maxR + 1)
    (hne : rc ≠ maxR + 1) : RcInv maxR ⟨n, rfs, s'⟩ :=
  ⟨by simpa [RcInv, hrc] using hle, fun hh => absurd (hrc.symm.trans hh) hne⟩

theorem step_rcInv (maxR maxTI : Nat) (sp : String) (c c' : Config)
    (hstep : Step maxR maxTI sp c c') (hinv : RcInv maxR c) : RcInv maxR c' := by
  cases hstep with
  | prepare rfs s =>
    exact rcInv_frame maxR _ _ _ s.retry_count (prepare_counters sp s).1 hinv.1
      (fun hh => nomatch hinv.2 hh)
  | generate rfs s resp =>
    exact rcInv_frame maxR _ _ _ s.retry_count (generate_rc resp s) hinv.1
      (fun hh => nomatch hinv.2 hh)
  | tools rfs s results =>
    exact rcInv_frame maxR _ _ _ s.retry_count rfl hinv.1
      (fun hh => nomatch hinv.2 hh)
  | validateNorm rfs s set2 s' h =>
    exact rcInv_frame maxR _ _ _ s.retry_count (validate_ok_pres none s _ h).1 hinv.1
      (fun hh => nomatch hinv.2 hh)
  | validateSusp rfs s prompt s' h =>
    exact rcInv_frame maxR _ _ _ s.retry_count (validate_ok_pres none s _ h).1 hinv.1
      (fun hh => nomatch hinv.2 hh)
  | validateErr rfs s e h =>
    exact rcInv_frame maxR _ _ _ s.retry_count rfl hinv.1
      (fun hh => nomatch hinv.2 hh)
  | resume rfs s fb set2 s' h =>
    exact rcInv_frame maxR _ _ _ s.retry_count (validate_ok_pres (some fb) s _ h).1 hinv.1
      (fun hh => nomatch hinv.2 hh)
  | resumeErr rfs s fb e h =>
    exact rcInv_frame maxR _ _ _ s.retry_count rfl hinv.1
      (fun hh => nomatch hinv.2 hh)
  | retryOk rfs s rfs' s' h =>
    have hspec := retry_node_ok_spec maxR maxTI rfs s rfs' s' h
    have hle : s.retry_count ≤ maxR + 1 := hinv.1
    have hsle : s.retry_count ≤ maxR := by
      by_cases hc : s.retry_count = maxR + 1
      · exact absurd (hinv.2 hc) (by simp)
      · omega
    constructor
    · show s'.retry_count ≤ maxR + 1
      rw [hspec.1]; omega
    · intro hh
      replace hh : s'.retry_count = maxR + 1 := hh
      show retryRouteNode maxR s' = .done
      simp [retryRouteNode, route_after_retry, hh]
  | retryErr rfs s e h =>
    exact rcInv_frame maxR _ _ _ s.retry_count rfl hinv.1
      (fun hh => nomatch hinv.2 hh)
  | create rfs s =>
    exact ⟨hinv.1, fun hh => rfl⟩

theorem reach_rcInv (maxR maxTI : Nat) (sp : String) (c0 c : Config)
    (h : Relation.ReflTransGen (Step maxR maxTI sp) c0 c) (hinv : RcInv maxR c0) :
    RcInv maxR c := by
  induction h with
  | refl => exact hinv
  | tail hsteps hstep ih => exact step_rcInv maxR maxTI sp _ _ hstep ih

theorem step_tic_mono (maxR maxTI : Nat) (sp : String) (c c' : Config)
    (hstep : Step maxR maxTI sp c c') :
    c.s.tool_iteration_count ≤ c'.s.tool_iteration_count := by
  cases hstep with
  | prepare rfs s => simp [(prepare_counters sp s).2]
  | generate rfs s resp => exact generate_tic_mono resp s
  | tools rfs s results => simp
  | validateNorm rfs s set2 s' h => simp [(validate_ok_pres none s _ h).2.1.symm, voutState]
  | validateSusp rfs s prompt s' h => simp [(validate_ok_pres none s _ h).2.1.symm, voutState]
  | validateErr rfs s e h => simp
  | resume rfs s fb set2 s' h => simp [(validate_ok_pres (some fb) s _ h).2.1.symm, voutState]
  | resumeErr rfs s fb e h => simp
  | retryOk rfs s rfs' s' h => simp [(retry_node_ok_spec maxR maxTI rfs s rfs' s' h).2.2.2.2.2.2.1]
  | retryErr rfs s e h => simp
  | create rfs s => simp

theorem reach_tic_mono (maxR maxTI : Nat) (sp : String) (c0 c : Config)
    (h : Relation.ReflTransGen (Step maxR maxTI sp) c0 c) :
    c0.s.tool_iteration_count ≤ c.s.tool_iteration_count := by
  induction h with
  | refl => exact Nat.le_refl _
  | tail hsteps hstep ih => exact Nat.le_trans ih (step_tic_mono maxR maxTI sp _ _ hstep)

/-! ### Helper lemmas for PREPARE_CONTEXT and GENERATE routing -/

theorem prepare_of_headed (sp : String) (s : GenState)
    (h : headedBySystem s.messages = true) : prepare_context_node sp s = s := by
  unfold prepare_context_node
  rw [if_pos h]

theorem headed_after_prepare (sp : String) (s : GenState) :
    headedBySystem (prepare_context_node sp s).messages = true := by
  unfold prepare_context_node
  split
  · assumption
  · rfl

theorem route_tools_bound (maxTI : Nat) (s : GenState)
    (h : route_after_generation maxTI s = "tools") :
    ¬ maxTI < s.tool_iteration_count := by
  intro hlt
  unfold route_after_generation at h
  by_cases hl : lastMsgToolCalls s.messages = true
  · rw [if_pos hl, if_pos hlt] at h
    exact absurd h (by decide)
  · rw [if_neg hl] at h
    split at h <;> exact absurd h (by decide)

/-! ### Claim theorems -/

/-- C1: every visit to the RETRY node that returns increments `retry_count`
by exactly 1; routing after RETRY selects END as soon as `retry_count`
exceeds `max_retries`; consequently, along every execution of the compiled
graph from an `execute` initial state, `retry_count` never exceeds
`max_retries + 1`. -/
theorem retry_increments_and_bounded (maxR maxTI : Nat) (sp query : String)
    (catalog : List Field) (ctx : Option String) (store : List (String × String)) :
    (∀ (rfs : Bool) (s : GenState) (rfs' : Bool) (s' : GenState),
      retry_node maxR maxTI rfs s = .ok (rfs', s') →
      s'.retry_count = s.retry_count + 1) ∧
    (∀ s : GenState, maxR < s.retry_count → route_after_retry maxR s = "end") ∧
    (∀ c : Config,
      Relation.ReflTransGen (Step maxR maxTI sp) (initConfig query catalog ctx store) c →
      c.s.retry_count ≤ maxR + 1) := by
  refine ⟨?_, ?_, ?_⟩
  · intro rfs s rfs' s' h
    exact (retry_node_ok_spec maxR maxTI rfs s rfs' s' h).1
  · intro s h
    simp [route_after_retry, h]
  · intro c hreach
    have hinv : RcInv maxR (initConfig query catalog ctx store) := by
      constructor
      · show (0 : Nat) ≤ maxR + 1
        omega
      · intro hh
        have hh2 : (0 : Nat) = maxR + 1 := hh
        exact absurd hh2 (by omega)
    exact (reach_rcInv maxR maxTI sp _ _ hreach hinv).1

/-- Witness for C1: a concrete RETRY visit increments the counter from 0 to
1, and a concrete reachable configuration satisfies the bound. -/
theorem retry_increments_and_bounded_witness :
    (∃ rp : Bool × GenState,
      retry_node 3 5 false
        (mkState [.system "sys", .human "q"] [] none none ["e"] 0 0) = .ok rp ∧
      rp.2.retry_count = 1) ∧
    (initConfig "apply for leave" sampleCatalog none []).s.retry_count ≤ 3 + 1 := by
  constructor
  · refine ⟨(false, mkState [.system "sys", .human "q",
        .human "Previous attempt failed with errors: e. Please generate valid Python code"]
        [] none none [] 1 0), rfl, ?_⟩
    exact (retry_increments_and_bounded 3 5 "sys" "q" [] none []).1 false
      (mkState [.system "sys", .human "q"] [] none none ["e"] 0 0) false
      (mkState [.system "sys", .human "q",
        .human "Previous attempt failed with errors: e. Please generate valid Python code"]
        [] none none [] 1 0) rfl
  · exact (retry_increments_and_bounded 3 5 "sys" "apply for leave" sampleCatalog
      none []).2.2 _ Relation.ReflTransGen.refl

/-- C3 (code bug): a non-empty payload whose cleaned text is not
well-formed JSON makes `_validate_node` raise `json.JSONDecodeError`
uncaught — the node's `except SyntaxError` handler can never match the
`ValueError` subclass `json.loads` raises — instead of returning normally
with a validation error as the spec requires. -/
theorem validate_parse_error_escapes :
    validate_node none
        (mkState [.human "q"] sampleCatalog none (some "not json") [] 0 0) =
      .error (.jsonDecodeError "Expecting value") := rfl

/-- C4: `tool_iteration_count` is incremented once per tool-requesting
response; once it exceeds `max_tool_iterations`, routing after GENERATE
sends a tool-requesting response to RETRY, and — since no node ever
decreases the counter — no later routing in the run can select TOOLS. -/
theorem tool_cap_routes_retry (maxR maxTI : Nat) (sp : String) :
    (∀ (r : LlmResponse) (s : GenState), r.tool_calls = true →
      (generate_node (.ok r) s).tool_iteration_count = s.tool_iteration_count + 1) ∧
    (∀ s : GenState, lastMsgToolCalls s.messages = true →
      maxTI < s.tool_iteration_count →
      route_after_generation maxTI s = "retry") ∧
    (∀ c c' : Config, Relation.ReflTransGen (Step maxR maxTI sp) c c' →
      maxTI < c.s.tool_iteration_count →
      route_after_generation maxTI c'.s ≠ "tools") := by
  refine ⟨generate_tic_of_tool_calls, ?_, ?_⟩
  · intro s h1 h2
    simp [route_after_generation, h1, h2]
  · intro c c' hreach hgt hcontra
    exact route_tools_bound maxTI c'.s hcontra
      (Nat.lt_of_lt_of_le hgt (reach_tic_mono maxR maxTI sp c c' hreach))

/-- Witness for C4: with the cap 5 already exceeded (count 6), a
tool-requesting response is routed to RETRY. -/
theorem tool_cap_routes_retry_witness :
    route_after_generation 5 (mkState [.ai "" true] [] none none [] 0 6) = "retry" :=
  (tool_cap_routes_retry 3 5 "sys").2.1 _ rfl (by decide)

/-- C6 (code bug): `_flow_resume_node` compares the `ClassificationResult`
object returned by `FlowResumeAgent.execute` against the string
`"answer"`; in Python that comparison is always false, so even an ANSWER
classification falls through to flow picking and the remembered
specialist is never resumed. -/
theorem flow_resume_answer_ignored :
    flow_resume_node (some "How many days and what is the reason?")
        (fun _ _ => ⟨.answer⟩) "3 days, for vacation" =
      .fallThroughToFlowPicker ∧
    ∀ (im : Option String) (classify : String → String → ClassificationResult)
      (q : String), flow_resume_node im classify q ≠ .resumeSpecialistAndEnd := by
  constructor
  · rfl
  · intro im classify q
    cases im with
    | none => simp [flow_resume_node]
    | some m => simp [flow_resume_node, pyEqCmp]

/-- C7: PREPARE_CONTEXT is idempotent: a state whose transcript already
begins with a system message passes through unchanged, and running the
node twice always equals running it once, so the leading system message is
never duplicated. -/
theorem prepare_context_idempotent (sp : String) (s : GenState) :
    (headedBySystem s.messages = true → prepare_context_node sp s = s) ∧
    prepare_context_node sp (prepare_context_node sp s) = prepare_context_node sp s :=
  ⟨prepare_of_headed sp s, prepare_of_headed sp _ (headed_after_prepare sp s)⟩

/-- Witness for C7: a concrete transcript headed by a system message is
returned unchanged. -/
theorem prepare_context_idempotent_witness :
    prepare_context_node "sys"
        (mkState [.system "sys", .human "hi"] [] none none [] 0 0) =
      mkState [.system "sys", .human "hi"] [] none none [] 0 0 :=
  (prepare_context_idempotent "sys" _).1 rfl

/-- C9: whenever the RETRY node returns an output state, that state has
empty `validation_errors` and a cleared payload, while pending values, the
field catalog, the context, the tool-iteration counter and the
side-channel store are unchanged; `retry_count` increases by exactly 1
(only transcript, retry counter, errors and payload buffer may change). -/
theorem retry_node_frame (maxR maxTI : Nat) (rfs : Bool) (s : GenState)
    (rfs' : Bool) (s' : GenState)
    (h : retry_node maxR maxTI rfs s = .ok (rfs', s')) :
    s'.validation_errors = [] ∧
    s'.generated_code = none ∧
    s'.field_values_dict = s.field_values_dict ∧
    s'.field_list = s.field_list ∧
    s'.context = s.context ∧
    s'.tool_iteration_count = s.tool_iteration_count ∧
    s'.store = s.store ∧
    s'.retry_count = s.retry_count + 1 := by
  have hs := retry_node_ok_spec maxR maxTI rfs s rfs' s' h
  exact ⟨hs.2.1, hs.2.2.1, hs.2.2.2.1, hs.2.2.2.2.1, hs.2.2.2.2.2.1,
         hs.2.2.2.2.2.2.1, hs.2.2.2.2.2.2.2, hs.1⟩

/-- Witness for C9: a concrete RETRY visit clears errors and payload and
leaves the pending values untouched. -/
theorem retry_node_frame_witness :
    ∃ rp : Bool × GenState,
      retry_node 3 5 false
        (mkState [.system "sys", .human "q"] sampleCatalog
          (some (.obj [("A", .str "1")])) (some "x") ["err"] 0 0) = .ok rp ∧
      rp.2.validation_errors = [] ∧
      rp.2.generated_code = none ∧
      rp.2.field_values_dict = some (.obj [("A", .str "1")]) := by
  refine ⟨(false, mkState [.system "sys", .human "q",
      .human "Previous attempt failed with errors: err. Please generate valid Python code"]
      sampleCatalog (some (.obj [("A", .str "1")])) none [] 1 0), rfl, ?_⟩
  have h := retry_node_frame 3 5 false
    (mkState [.system "sys", .human "q"] sampleCatalog
      (some (.obj [("A", .str "1")])) (some "x") ["err"] 0 0) false
    (mkState [.system "sys", .human "q",
      .human "Previous attempt failed with errors: err. Please generate valid Python code"]
      sampleCatalog (some (.obj [("A", .str "1")])) none [] 1 0) rfl
  exact ⟨h.1, h.2.1, h.2.2.1⟩

/-- C10: `FlowPickerAgent.execute` returns the constant string
`"Leave management"` without consulting the model or its input, so the
flow id stored by `_flow_picker_node` is the same for all requests. -/
theorem flow_picker_constant :
    (∀ m : String, flowPickerExecute m = "Leave management") ∧
    (∀ q₁ q₂ : String, flow_picker_node q₁ = flow_picker_node q₂) :=
  ⟨fun _ => rfl, fun _ _ => rfl⟩

/-! ### VALIDATE reduction helpers -/

theorem validate_node_step1 (r : Option String) (s : GenState) (gc : String)
    (h1 : s.generated_code = some gc) (h2 : gc ≠ "") :
    validate_node r s =
      match json_loads (clean_code gc) with
      | .error e => .error (.jsonDecodeError e)
      | .ok v =>
        match mergeStep v s.field_values_dict with
        | .error e => .error e
        | .ok fvm => validateTail r s v fvm := by
  unfold validate_node
  rw [h1]
  dsimp only
  rw [if_neg h2]

theorem validateTail_normal_fvd (r : Option String) (s : GenState) (v fvm : PyVal)
    (b : Bool) (s' : GenState)
    (h : validateTail r s v fvm = .ok (.normal b s')) :
    s'.field_values_dict = some fvm := by
  unfold validateTail at h
  repeat' split at h
  all_goals first
    | (injection h with h; injection h with hb hs; subst hs; rfl)
    | (injection h with h; injection h)
    | injection h

/-- C2: after a successful parse and merge, VALIDATE suspends exactly when
required catalog fields are missing from the merged mapping: it records
the interrupt prompt (listing exactly the missing required field ids, in
catalog order) in the side-channel store together with the originating
subgraph id, raises the interrupt with that prompt, and when later resumed
it routes to RETRY, never to CREATE; when no required field is missing it
returns normally and no suspend is raised. -/
theorem validate_missing_required (s : GenState) (gc : String) (v fvm : PyVal)
    (h1 : s.generated_code = some gc) (h2 : gc ≠ "")
    (h3 : json_loads (clean_code gc) = .ok v)
    (h4 : mergeStep v s.field_values_dict = .ok fvm) :
    (∀ m0 ms, missingRequired s.field_list fvm = .ok (m0 :: ms) →
      (∃ susp : GenState,
        validate_node none s = .ok (.suspended (suspendPrompt (m0 :: ms)) susp) ∧
        alookup "interrupted_message" susp.store = some (suspendPrompt (m0 :: ms)) ∧
        alookup "subgraph_id" susp.store = some "item_creater_agent") ∧
      (∀ fb, ∃ s' : GenState,
        validate_node (some fb) s = .ok (.normal true s') ∧
        route_after_validation true s' = "retry" ∧
        route_after_validation true s' ≠ "create")) ∧
    (missingRequired s.field_list fvm = .ok [] →
      ∀ r, validate_node r s =
        .ok (.normal false { s with field_values_dict := some fvm })) := by
  constructor
  · intro m0 ms h5
    constructor
    · refine ⟨suspendedState s v (m0 :: ms), ?_, ?_, ?_⟩
      · rw [validate_node_step1 none s gc h1 h2, h3]
        dsimp only
        rw [h4]
        dsimp only [validateTail]
        rw [h5]
      · dsimp only [suspendedState, suspendStore]
        exact alookup_dictUpdate_mem _ _ _ _ (by simp [akeys]) (by simp [alookup])
      · dsimp only [suspendedState, suspendStore]
        exact alookup_dictUpdate_mem _ _ _ _ (by simp [akeys]) (by simp [alookup])
    · intro fb
      refine ⟨resumedState s fvm (m0 :: ms) fb, ?_, ?_, ?_⟩
      · rw [validate_node_step1 (some fb) s gc h1 h2, h3]
        dsimp only
        rw [h4]
        dsimp only [validateTail]
        rw [h5]
      · simp [route_after_validation, resumedState, NO_CODE_ERROR]
      · simp [route_after_validation, resumedState, NO_CODE_ERROR]
  · intro h5 r
    rw [validate_node_step1 r s gc h1 h2, h3]
    dsimp only
    rw [h4]
    dsimp only [validateTail]
    rw [h5]

/-- Witness for C2: catalog requires `Summary` and `Start_Date`, the
payload supplies only `Summary`, and VALIDATE suspends with a prompt
listing exactly `Start_Date`, recorded in the side-channel store. -/
theorem validate_missing_required_witness :
    ∃ susp : GenState,
      validate_node none
          (mkState [.human "q"] sampleCatalog none
            (some "\x7b\"Summary\": \"vacation\"\x7d") [] 0 0) =
        .ok (.suspended (suspendPrompt ["Start_Date"]) susp) ∧
      alookup "interrupted_message" susp.store = some (suspendPrompt ["Start_Date"]) := by
  have h := (validate_missing_required
      (mkState [.human "q"] sampleCatalog none
        (some "\x7b\"Summary\": \"vacation\"\x7d") [] 0 0)
      "\x7b\"Summary\": \"vacation\"\x7d"
      (.obj [("Summary", .str "vacation")]) (.obj [("Summary", .str "vacation")])
      rfl (by decide) rfl rfl).1 "Start_Date" [] rfl
  obtain ⟨⟨susp, hs1, hs2, _⟩, _⟩ := h
  exact ⟨susp, hs1, hs2⟩

/-- C5: merge monotonicity — when the payload parses to a mapping and
VALIDATE returns, the pending-values mapping after the node is a superset
of the one before it: parsed keys carry the parsed values (overwriting any
prior value), keys not in the parsed mapping keep their prior values, and
no previously stored key is removed. -/
theorem validate_merge_monotone (r : Option String) (s : GenState) (gc : String)
    (m : List (String × PyVal)) (b : Bool) (s' : GenState)
    (h1 : s.generated_code = some gc) (h2 : gc ≠ "")
    (h3 : json_loads (clean_code gc) = .ok (.obj m))
    (hnd : (akeys m).Nodup)
    (h4 : validate_node r s = .ok (.normal b s')) :
    (∀ k, (pendingLookup s.field_values_dict k).isSome →
      (pendingLookup s'.field_values_dict k).isSome) ∧
    (∀ k w, alookup k m = some w → pendingLookup s'.field_values_dict k = some w) ∧
    (∀ k, alookup k m = none →
      pendingLookup s'.field_values_dict k = pendingLookup s.field_values_dict k) := by
  rw [validate_node_step1 r s gc h1 h2, h3] at h4
  dsimp only at h4
  cases hfvd : s.field_values_dict with
  | none =>
    try rw [hfvd] at h4
    try dsimp only [mergeStep] at h4
    try dsimp only at h4
    have hs' : s'.field_values_dict = some (.obj m) :=
      validateTail_normal_fvd r s _ _ b s' h4
    rw [hs']
    refine ⟨?_, ?_, ?_⟩
    · intro k hk
      simp [pendingLookup] at hk
    · intro k w hkw
      simpa [pendingLookup] using hkw
    · intro k hk
      simp [pendingLookup, hk]
  | some pv =>
    cases pv with
    | obj d =>
      try rw [hfvd] at h4
      try dsimp only [mergeStep] at h4
      try dsimp only at h4
      have hs' : s'.field_values_dict = some (.obj (dictUpdate d m)) :=
        validateTail_normal_fvd r s _ _ b s' h4
      rw [hs']
      refine ⟨?_, ?_, ?_⟩
      · intro k hk
        simp only [pendingLookup] at hk ⊢
        exact alookup_dictUpdate_isSome d m k hk
      · intro k w hkw
        simp only [pendingLookup]
        exact alookup_dictUpdate_mem d m k w hnd hkw
      · intro k hk
        simp only [pendingLookup]
        exact alookup_dictUpdate_not_mem d m k hk
    | str t =>
      try rw [hfvd] at h4
      try dsimp only [mergeStep] at h4
      try dsimp only at h4
      injection h4
    | num n =>
      try rw [hfvd] at h4
      try dsimp only [mergeStep] at h4
      try dsimp only at h4
      injection h4
    | boolean b2 =>
      try rw [hfvd] at h4
      try dsimp only [mergeStep] at h4
      try dsimp only at h4
      injection h4
    | null =>
      try rw [hfvd] at h4
      try dsimp only [mergeStep] at h4
      try dsimp only at h4
      injection h4
    | arr xs =>
      try rw [hfvd] at h4
      try dsimp only [mergeStep] at h4
      try dsimp only at h4
      injection h4

/-- Witness for C5: merging `{"B": "2"}` into pending values `{"A": "1"}`
keeps `A` and stores the parsed value of `B`. -/
theorem validate_merge_monotone_witness :
    ∃ s' : GenState,
      validate_node (some "fb")
          (mkState [.human "q"] sampleCatalog (some (.obj [("A", .str "1")]))
            (some "\x7b\"B\": \"2\"\x7d") [] 0 0) = .ok (.normal true s') ∧
      (pendingLookup s'.field_values_dict "A").isSome ∧
      pendingLookup s'.field_values_dict "B" = some (.str "2") := by
  have hm := (validate_missing_required
      (mkState [.human "q"] sampleCatalog (some (.obj [("A", .str "1")]))
        (some "\x7b\"B\": \"2\"\x7d") [] 0 0)
      "\x7b\"B\": \"2\"\x7d" (.obj [("B", .str "2")])
      (.obj [("A", .str "1"), ("B", .str "2")])
      rfl (by decide) rfl rfl).1 "Summary" ["Start_Date"] rfl
  obtain ⟨_, hres⟩ := hm
  obtain ⟨s', hv, _, _⟩ := hres "fb"
  have hmono := validate_merge_monotone (some "fb") _ "\x7b\"B\": \"2\"\x7d"
    [("B", .str "2")] true s' rfl (by decide) rfl (by decide) hv
  refine ⟨s', hv, ?_, ?_⟩
  · exact hmono.1 "A" rfl
  · exact hmono.2.1 "B" (.str "2") rfl

/-! ### Character-list lemmas for the fence round-trip -/

theorem str_data_append (a b : String) : (a ++ b).data = a.data ++ b.data := by
  cases a
  cases b
  rfl

theorem lstrip_cons_not (c : Char) (l : List Char) (h : pyIsSpace c = false) :
    lstripL (c :: l) = c :: l := by
  simp [lstripL, List.dropWhile_cons, h]

theorem lstrip_cons_space (c : Char) (l : List Char) (h : pyIsSpace c = true) :
    lstripL (c :: l) = lstripL l := by
  simp [lstripL, List.dropWhile_cons, h]

theorem lstrip_append (xs ys : List Char) :
    lstripL (xs ++ ys) =
      if (lstripL xs).isEmpty then lstripL ys else lstripL xs ++ ys := by
  induction xs with
  | nil => simp [lstripL]
  | cons c t ih =>
    by_cases h : pyIsSpace c
    · rw [List.cons_append, lstrip_cons_space c _ h, lstrip_cons_space c t h, ih]
    · rw [List.cons_append, lstrip_cons_not c _ (by simpa using h),
          lstrip_cons_not c t (by simpa using h)]
      simp

theorem lstrip_idem (l : List Char) : lstripL (lstripL l) = lstripL l := by
  induction l with
  | nil => rfl
  | cons c t ih =>
    by_cases h : pyIsSpace c
    · rw [lstrip_cons_space c t h, ih]
    · rw [lstrip_cons_not c t (by simpa using h), lstrip_cons_not c t (by simpa using h)]

theorem rstrip_append_not (l : List Char) (c : Char) (h : pyIsSpace c = false) :
    rstripL (l ++ [c]) = l ++ [c] := by
  unfold rstripL
  rw [List.reverse_append]
  simp [List.dropWhile_cons, h]

theorem rstrip_append_space (l : List Char) (c : Char) (h : pyIsSpace c = true) :
    rstripL (l ++ [c]) = rstripL l := by
  unfold rstripL
  rw [List.reverse_append]
  simp [List.dropWhile_cons, h]

theorem isPre_append_self (a b : List Char) : isPre a (a ++ b) = true := by
  induction a with
  | nil => rfl
  | cons c t ih => simp [isPre, ih]

theorem isPre_of_isPre_append (a b l : List Char)
    (h : isPre (a ++ b) l = true) : isPre a l = true := by
  induction a generalizing l with
  | nil => rfl
  | cons c t ih =>
    cases l with
    | nil => exact absurd h (by simp [isPre])
    | cons c2 l2 =>
      rw [List.cons_append, isPre] at h
      rw [isPre]
      simp only [Bool.and_eq_true] at h ⊢
      exact ⟨h.1, ih l2 h.2⟩

theorem strip_wrap (p : List Char) :
    stripL ("```python\n".data ++ (p ++ "\n```".data)) =
      "```python\n".data ++ (p ++ "\n```".data) := by
  have hshape1 : "```python\n".data ++ (p ++ "\n```".data) =
      Char.ofNat 96 :: ("``python\n".data ++ (p ++ "\n```".data)) := by
    have hD : "```python\n".data = Char.ofNat 96 :: "``python\n".data := by decide
    rw [hD]
    rfl
  have hshape2 : "```python\n".data ++ (p ++ "\n```".data) =
      ("```python\n".data ++ (p ++ "\n``".data)) ++ [Char.ofNat 96] := by
    have hE : "\n```".data = "\n``".data ++ [Char.ofNat 96] := by decide
    rw [hE]
    simp [List.append_assoc]
  unfold stripL
  rw [hshape1, lstrip_cons_not _ _ (by decide), ← hshape1, hshape2,
      rstrip_append_not _ _ (by decide), ← hshape2]

theorem cleanFence_wrap (p : List Char) :
    cleanFence ("```python\n".data ++ (p ++ "\n```".data)) =
      stripL (p ++ "\n```".data) := by
  have hA : "```python\n".data = "```python".data ++ ['\n'] := by decide
  have h9 : ("```python".data).length = 9 := by decide
  have hpre : isPre "```python".data
      ("```python\n".data ++ (p ++ "\n```".data)) = true := by
    rw [hA, List.append_assoc]
    exact isPre_append_self _ _
  unfold cleanFence
  rw [if_pos hpre]
  have hdrop : ("```python\n".data ++ (p ++ "\n```".data)).drop 9 =
      '\n' :: (p ++ "\n```".data) := by
    rw [hA, List.append_assoc, ← h9, List.drop_left]
    rfl
  rw [hdrop]
  unfold stripL
  rw [lstrip_cons_space _ _ (by decide)]

theorem strip_tail_case_empty (p : List Char) (hq : lstripL p = []) :
    stripL (p ++ "\n```".data) = "```".data := by
  unfold stripL
  rw [lstrip_append, hq]
  have h1 : lstripL ("\n```".data) = "```".data := by decide
  simp only [List.isEmpty_nil, if_true, h1]
  decide

theorem strip_tail_case_nonempty (p : List Char) (hq : (lstripL p).isEmpty = false) :
    stripL (p ++ "\n```".data) = lstripL p ++ "\n```".data := by
  unfold stripL
  rw [lstrip_append, hq]
  simp only [Bool.false_eq_true, if_false]
  have hshape : lstripL p ++ "\n```".data =
      (lstripL p ++ "\n``".data) ++ [Char.ofNat 96] := by
    have hE : "\n```".data = "\n``".data ++ [Char.ofNat 96] := by decide
    rw [hE]
    simp [List.append_assoc]
  rw [hshape, rstrip_append_not _ _ (by decide), ← hshape]

theorem cleanSuffix_fence3 : cleanSuffix ("```".data) = [] := by decide

theorem cleanSuffix_tail (x : List Char) :
    cleanSuffix (x ++ "\n```".data) =
      if (lstripL x).isEmpty then [] else stripL x := by
  have hR : ("\n```".data).reverse = ("```".data).reverse ++ ['\n'] := by decide
  have hB : "\n```".data = ['\n'] ++ "```".data := by decide
  have hsuf : isPre ("```".data).reverse ((x ++ "\n```".data)).reverse = true := by
    rw [List.reverse_append, hR, List.append_assoc]
    exact isPre_append_self _ _
  unfold cleanSuffix
  rw [if_pos hsuf]
  have hlen : (x ++ "\n```".data).length - 3 = (x ++ ['\n']).length := by
    have h4 : ("\n```".data).length = 4 := by decide
    simp [List.length_append, h4]
  have htake : (x ++ "\n```".data).take ((x ++ "\n```".data).length - 3) =
      x ++ ['\n'] := by
    rw [hlen, hB, ← List.append_assoc, List.take_left]
  rw [htake]
  unfold stripL
  rw [lstrip_append]
  by_cases hxe : (lstripL x).isEmpty
  · rw [if_pos hxe, if_pos hxe]
    have h1 : lstripL ['\n'] = [] := by decide
    rw [h1]
    rfl
  · rw [if_neg hxe, if_neg hxe]
    exact rstrip_append_space _ _ (by decide)

theorem cleanA (p : List Char) :
    cleanL ("```python\n".data ++ (p ++ "\n```".data)) = stripL p := by
  unfold cleanL
  rw [strip_wrap, cleanFence_wrap]
  by_cases hq : (lstripL p).isEmpty
  · have hnil : lstripL p = [] := by
      cases h2 : lstripL p with
      | nil => rfl
      | cons a b => rw [h2] at hq; simp at hq
    rw [strip_tail_case_empty p hnil, cleanSuffix_fence3]
    unfold stripL
    rw [hnil]
    rfl
  · have hq' : (lstripL p).isEmpty = false := by simpa using hq
    rw [strip_tail_case_nonempty p hq', cleanSuffix_tail (lstripL p), lstrip_idem]
    rw [if_neg (by simp [hq'])]
    unfold stripL
    rw [lstrip_idem]

theorem cleanB (p : List Char)
    (h1 : isPre "```".data (stripL p) = false)
    (h2 : isPre ("```".data).reverse (stripL p).reverse = false) :
    cleanL p = stripL p := by
  have h3 : isPre "```python".data (stripL p) = false := by
    by_cases hx : isPre "```python".data (stripL p) = true
    · have h4 : "```python".data = "```".data ++ "python".data := by decide
      rw [h4] at hx
      have h5 := isPre_of_isPre_append _ _ _ hx
      rw [h5] at h1
      simp at h1
    · simpa using hx
  unfold cleanL cleanFence cleanSuffix
  rw [if_neg (show ¬ isPre "```python".data (stripL p) = true by rw [h3]; simp),
      if_neg (show ¬ isPre "```".data (stripL p) = true by rw [h1]; simp),
      if_neg (show ¬ isPre ("```".data).reverse (stripL p).reverse = true by
        rw [h2]; simp)]

theorem clean_code_wrap (p : String) : clean_code (fenceWrap p) = pyStrip p := by
  have hdata : (fenceWrap p).data =
      "```python\n".data ++ (p.data ++ "\n```".data) := by
    unfold fenceWrap
    rw [str_data_append, str_data_append, List.append_assoc]
  show (⟨cleanL (fenceWrap p).data⟩ : String) = pyStrip p
  rw [hdata, cleanA]
  rfl

theorem clean_code_plain (p : String)
    (hpre : pyStartsWith (pyStrip p) "```" = false)
    (hsuf : pyEndsWith (pyStrip p) "```" = false) :
    clean_code p = pyStrip p := by
  show (⟨cleanL p.data⟩ : String) = pyStrip p
  rw [cleanB p.data hpre hsuf]
  rfl

theorem scrub_validateTail_gc (r : Option String) (s : GenState) (v fvm : PyVal)
    (x y : Option String) :
    scrubRes (validateTail r { s with generated_code := x } v fvm) =
    scrubRes (validateTail r { s with generated_code := y } v fvm) := by
  obtain ⟨msgs, ctx, fl, fvd, gc0, ve, rc, tic, st⟩ := s
  unfold validateTail
  dsimp only
  repeat' split
  all_goals rfl

/-- C8 counterexample: for the payload `{"A": "x"}` followed by a stray
trailing fence line, validating the fence-wrapped payload differs from
validating the unwrapped payload (the unwrapped one has its trailing fence
stripped and parses; the wrapped one keeps it and fails to parse), so the
round-trip claim is false as stated for arbitrary payload strings. -/
theorem roundtrip_fence_cex :
    validate_node none
        (mkState [.human "q"] [] none
          (some (fenceWrap "\x7b\"A\": \"x\"\x7d\n```")) [] 0 0) ≠
      validate_node none
        (mkState [.human "q"] [] none
          (some "\x7b\"A\": \"x\"\x7d\n```") [] 0 0) :=
  fun h => absurd (congrArg resIsOk h) (by decide)

/-- C8 (amended): for every non-empty payload whose stripped text does not
itself start or end with a code fence, validating the fence-wrapped
payload produces the same outcome and the same resulting state as
validating the unwrapped payload, apart from the stored raw payload text
itself (`generated_code`), which trivially differs between the two runs. -/
theorem roundtrip_fence_amended (p : String) (r : Option String) (s : GenState)
    (hne : p ≠ "")
    (hpre : pyStartsWith (pyStrip p) "```" = false)
    (hsuf : pyEndsWith (pyStrip p) "```" = false) :
    scrubRes (validate_node r { s with generated_code := some (fenceWrap p) }) =
    scrubRes (validate_node r { s with generated_code := some p }) := by
  have hwne : fenceWrap p ≠ "" := by
    intro h
    have h2 := congrArg (fun q : String => q.data.length) h
    simp only [fenceWrap, str_data_append, List.length_append] at h2
    have hx : ("```python\n".data).length = 10 := by decide
    have hy : ("\n```".data).length = 4 := by decide
    have hz : (("" : String).data).length = 0 := by decide
    rw [hx, hy, hz] at h2
    omega
  rw [validate_node_step1 r _ (fenceWrap p) rfl hwne,
      validate_node_step1 r _ p rfl hne,
      clean_code_wrap, clean_code_plain p hpre hsuf]
  cases hj : json_loads (pyStrip p) with
  | error e => rfl
  | ok v =>
    dsimp only
    cases hm : mergeStep v s.field_values_dict with
    | error e => rfl
    | ok fvm => exact scrub_validateTail_gc r s v fvm (some (fenceWrap p)) (some p)

/-- Witness for the amended C8: the fence-free payload `{"A": "x"}`
validates identically wrapped and unwrapped. -/
theorem roundtrip_fence_amended_witness :
    scrubRes (validate_node none
        (mkState [.human "q"] [] none
          (some (fenceWrap "\x7b\"A\": \"x\"\x7d")) [] 0 0)) =
    scrubRes (validate_node none
        (mkState [.human "q"] [] none (some "\x7b\"A\": \"x\"\x7d") [] 0 0)) :=
  roundtrip_fence_amended "\x7b\"A\": \"x\"\x7d" none
    (mkState [.human "q"] [] none (some "\x7b\"A\": \"x\"\x7d") [] 0 0)
    (by decide) (by decide) (by decide)

end BaseOrchestrator
